/-
Verification of the particle simulation in `components/ParticleCanvas.tsx`
(Logo-ParticleV2).  The per-frame physics step, the interaction-point
smoothing, the image/ambient particle sampler and the state effects of
`initParticles` are embedded shallowly over the real numbers; floating-point
special values (NaN, infinities) are modelled separately by the `JVal` type
where a claim is about them.
-/
import Mathlib

open Classical

noncomputable section

namespace LogoParticle

/-- Particle record, from `types.ts` (`interface Particle`). -/
structure Particle where
  x : ℝ
  y : ℝ
  originX : ℝ
  originY : ℝ
  color : String
  size : ℝ
  vx : ℝ
  vy : ℝ
  density : ℝ

/-- Smoothing factor, `ParticleCanvas.tsx` line 220 (`const smoothFactor = 0.15`). -/
def smoothFactor : ℝ := 0.15

/-- Linear interpolation, `ParticleCanvas.tsx` line 219. -/
def lerp (start finish factor : ℝ) : ℝ := start + (finish - start) * factor

/-- One frame of interaction-point smoothing, `ParticleCanvas.tsx` lines 222-233.
The raw target and the smoothed current point are each an `(x, y)` pair whose
coordinates are null or non-null as a unit (all writers set both together), so
both are modelled as `Option (ℝ × ℝ)`.  The code's test
`target.x !== null && target.y !== null` is `target = some t`, and its test
`current.x === null` is `current = none`. -/
def smoothStep (target current : Option (ℝ × ℝ)) : Option (ℝ × ℝ) :=
  match target with
  | some t =>
    match current with
    | none => some t
    | some c => some (lerp c.1 t.1 smoothFactor, lerp c.2 t.2 smoothFactor)
  | none => none

/-- Off-screen sentinel used when an interaction coordinate is absent,
`ParticleCanvas.tsx` lines 251-252 (`currentRef.current.x || -1000`). -/
def sentinel : ℝ := -1000

/-- JavaScript `coord || -1000` on a nullable number: `null` and `0` are both
falsy, so either yields the sentinel. -/
def effCoord (c : Option ℝ) : ℝ :=
  match c with
  | none => sentinel
  | some v => if v = 0 then sentinel else v

/-- Effective x coordinate of the interaction point (`ParticleCanvas.tsx` line 251). -/
def effX (current : Option (ℝ × ℝ)) : ℝ := effCoord (current.map Prod.fst)

/-- Effective y coordinate of the interaction point (`ParticleCanvas.tsx` line 252). -/
def effY (current : Option (ℝ × ℝ)) : ℝ := effCoord (current.map Prod.snd)

/-- Interaction radius, `ParticleCanvas.tsx` line 20 (`radiusRef = 320`; never
reassigned). -/
def interactionRadius : ℝ := 320

/-- Distance from a particle to the effective interaction position,
`ParticleCanvas.tsx` lines 251-253. -/
def interactionDistance (current : Option (ℝ × ℝ)) (p : Particle) : ℝ :=
  Real.sqrt ((effX current - p.x) * (effX current - p.x) +
    (effY current - p.y) * (effY current - p.y))

/-- One physics update of a single particle, `ParticleCanvas.tsx` lines 248-284,
with `radius` standing for `radiusRef.current`, `current` for the smoothed
interaction point and `center` for `(canvas.width / 2, canvas.height / 2)`. -/
def physicsStep (radius : ℝ) (current : Option (ℝ × ℝ)) (center : ℝ × ℝ)
    (p : Particle) : Particle :=
  let dx := effX current - p.x
  let dy := effY current - p.y
  let distance := Real.sqrt (dx * dx + dy * dy)
  let forceDirectionX := dx / distance
  let forceDirectionY := dy / distance
  let maxDistance := radius
  let homeX := center.1 + p.originX
  let homeY := center.2 + p.originY
  let p1 :=
    if distance < maxDistance then
      let force := (maxDistance - distance) / maxDistance
      { p with vx := p.vx - forceDirectionX * force * p.density * 2.0,
               vy := p.vy - forceDirectionY * force * p.density * 2.0 }
    else
      let pa := if p.x ≠ homeX then { p with vx := p.vx - (p.x - homeX) / 25 } else p
      if p.y ≠ homeY then { pa with vy := pa.vy - (p.y - homeY) / 25 } else pa
  let p2 := { p1 with vx := p1.vx * 0.90, vy := p1.vy * 0.90 }
  { p2 with x := p2.x + p2.vx, y := p2.y + p2.vy }

/-- Spring phase of the step in the spec's wording: subtract
`(position - home) / 25` from velocity on each axis. -/
def springPhase (center : ℝ × ℝ) (p : Particle) : Particle :=
  { p with vx := p.vx - (p.x - (center.1 + p.originX)) / 25,
           vy := p.vy - (p.y - (center.2 + p.originY)) / 25 }

/-- Repulsion phase in the spec's wording: subtract from velocity the unit
direction toward the effective point scaled by
`((radius - distance) / radius) * density * 2.0`. -/
def repulsePhase (radius : ℝ) (current : Option (ℝ × ℝ)) (p : Particle) : Particle :=
  let dx := effX current - p.x
  let dy := effY current - p.y
  let distance := interactionDistance current p
  { p with
      vx := p.vx - dx / distance * ((radius - distance) / radius) * p.density * 2.0,
      vy := p.vy - dy / distance * ((radius - distance) / radius) * p.density * 2.0 }

/-- Force phase in the spec's wording: repulsion strictly inside the
interaction radius, home spring otherwise. -/
def forcePhase (radius : ℝ) (current : Option (ℝ × ℝ)) (center : ℝ × ℝ)
    (p : Particle) : Particle :=
  if interactionDistance current p < radius then repulsePhase radius current p
  else springPhase center p

/-- Damping phase: multiply both velocity components by 0.90. -/
def dampPhase (p : Particle) : Particle :=
  { p with vx := p.vx * 0.90, vy := p.vy * 0.90 }

/-- Explicit-Euler integration phase: add velocity to position. -/
def integratePhase (p : Particle) : Particle :=
  { p with x := p.x + p.vx, y := p.y + p.vy }

/-- The physics step as the spec words it: force update, then damping, then
integration, in exactly that order. -/
def stepSpec (radius : ℝ) (current : Option (ℝ × ℝ)) (center : ℝ × ℝ)
    (p : Particle) : Particle :=
  integratePhase (dampPhase (forcePhase radius current center p))

/-- Iterated frames of the physics step; `cur n` and `cen n` are the smoothed
interaction point and the canvas center seen by frame `n` (the center may vary
across frames because of resizes). -/
def frames (radius : ℝ) (cur : ℕ → Option (ℝ × ℝ)) (cen : ℕ → ℝ × ℝ)
    (p : Particle) : ℕ → Particle
  | 0 => p
  | n + 1 => physicsStep radius (cur n) (cen n) (frames radius cur cen p n)

/-- Distance from a particle's position to its derived home
`center + origin`. -/
def distToHome (center : ℝ × ℝ) (p : Particle) : ℝ :=
  Real.sqrt ((p.x - (center.1 + p.originX)) ^ 2 + (p.y - (center.2 + p.originY)) ^ 2)

/-- Random source for the sampler: a stream of draws together with the index of
the next draw, mirroring successive `Math.random()` calls. -/
structure Rng where
  stream : ℕ → ℝ
  idx : ℕ

/-- One random draw. -/
def Rng.next (r : Rng) : ℝ × Rng := (r.stream r.idx, { r with idx := r.idx + 1 })

/-- Universe radius, `ParticleCanvas.tsx` line 56
(`Math.min(width, height) * 0.45`). -/
def universeRadius (w h : ℕ) : ℝ := min (w : ℝ) (h : ℝ) * 0.45

/-- Ambient particle budget, `ParticleCanvas.tsx` lines 79-81:
`Math.min(Math.floor(Math.PI * r * r / 30), 20000)`. -/
def ambientBudget (w h : ℕ) : ℤ :=
  min ⌊Real.pi * universeRadius w h * universeRadius w h / 30⌋ 20000

/-- Gray color string `rgb(v, v, v)` built as in `ParticleCanvas.tsx`
lines 101 and 105. -/
def rgbGray (v : ℤ) : String :=
  "rgb(" ++ toString v ++ ", " ++ toString v ++ ", " ++ toString v ++ ")"

/-- One ambient particle, `ParticleCanvas.tsx` lines 83-120, consuming random
draws in source order: angle, radius, star test, gray value, size, density. -/
def mkAmbientParticle (cx cy rad : ℝ) (r : Rng) : Particle × Rng :=
  let a := r.next
  let b := a.2.next
  let angle := a.1 * Real.pi * 2
  let rr := Real.sqrt b.1 * rad
  let x := cx + rr * Real.cos angle
  let y := cy + rr * Real.sin angle
  let st := b.2.next
  let v := st.2.next
  let sz := v.2.next
  let d := sz.2.next
  if st.1 < 0.005 then
    (⟨x, y, x - cx, y - cy, rgbGray ⌊v.1 * 100 + 155⌋, sz.1 * 1.5 + 0.5, 0, 0,
      d.1 * 20 + 1⟩, d.2)
  else
    (⟨x, y, x - cx, y - cy, rgbGray ⌊v.1 * 30 + 10⌋, sz.1 * 2 + 0.5, 0, 0,
      d.1 * 20 + 1⟩, d.2)

/-- The ambient generation loop, `ParticleCanvas.tsx` lines 83-120. -/
def genAmbientAux (cx cy rad : ℝ) : ℕ → Rng → List Particle × Rng
  | 0, r => ([], r)
  | n + 1, r =>
    let pr := mkAmbientParticle cx cy rad r
    let rest := genAmbientAux cx cy rad n pr.2
    (pr.1 :: rest.1, rest.2)

/-- All ambient particles of one sampling pass. -/
def ambientParticles (w h : ℕ) (r : Rng) : List Particle × Rng :=
  genAmbientAux ((w : ℝ) / 2) ((h : ℝ) / 2) (universeRadius w h)
    (ambientBudget w h).toNat r

/-- Sampling stride, `ParticleCanvas.tsx` line 123
(`width < 768 ? 3 : 2`). -/
def strideOf (w : ℕ) : ℕ := if w < 768 then 3 else 2

/-- The values visited by `for (v = 0; v < len; v += s)`:
`0, s, 2s, ...` while below `len`. -/
def gridAxis (len s : ℕ) : List ℕ := List.range' 0 ((len + s - 1) / s) s

/-- Row-major list of grid positions `(x, y)` visited by the nested image
sampling loops, `ParticleCanvas.tsx` lines 125-126. -/
def gridPairs (w h : ℕ) : List (ℕ × ℕ) :=
  (gridAxis h (strideOf w)).flatMap
    (fun py => (gridAxis w (strideOf w)).map (fun px => (px, py)))

/-- Alpha of pixel `(px, py)`: byte `(py * w + px) * 4 + 3` of the RGBA image
data, 0 when out of range (JS `undefined` compares false against 128). -/
def alphaAt (data : List ℕ) (w px py : ℕ) : ℕ :=
  data.getD ((py * w + px) * 4 + 3) 0

/-- One image particle, `ParticleCanvas.tsx` lines 143-153, consuming random
draws in source order: x, y, size-class test, size, density. -/
def mkImageParticle (w h : ℕ) (px py : ℕ) (r : Rng) : Particle × Rng :=
  let a := r.next
  let b := a.2.next
  let t := b.2.next
  let s := t.2.next
  let d := s.2.next
  (⟨a.1 * w, b.1 * h, (px : ℝ) - (w : ℝ) / 2, (py : ℝ) - (h : ℝ) / 2,
    "rgb(255, 255, 255)",
    if t.1 < 0.3 then s.1 * 0.8 + 0.6 else s.1 * 0.4 + 0.2,
    0, 0, d.1 * 30 + 1⟩, d.2)

/-- Inner (x) image sampling loop for one row, `ParticleCanvas.tsx`
lines 126-155: skip when the pixel index is out of range, emit a particle when
alpha exceeds 128. -/
def genImageCols (w h : ℕ) (data : List ℕ) (py : ℕ) :
    List ℕ → Rng → List Particle × Rng
  | [], r => ([], r)
  | px :: rest, r =>
    if data.length ≤ (py * w + px) * 4 then genImageCols w h data py rest r
    else if 128 < alphaAt data w px py then
      let pr := mkImageParticle w h px py r
      let restr := genImageCols w h data py rest pr.2
      (pr.1 :: restr.1, restr.2)
    else genImageCols w h data py rest r

/-- Outer (y) image sampling loop, `ParticleCanvas.tsx` lines 125-156. -/
def genImageRows (w h : ℕ) (data : List ℕ) :
    List ℕ → Rng → List Particle × Rng
  | [], r => ([], r)
  | py :: rest, r =>
    let rowr := genImageCols w h data py (gridAxis w (strideOf w)) r
    let restr := genImageRows w h data rest rowr.2
    (rowr.1 ++ restr.1, restr.2)

/-- All image particles of one sampling pass. -/
def imageParticles (w h : ℕ) (data : List ℕ) (r : Rng) : List Particle × Rng :=
  genImageRows w h data (gridAxis h (strideOf w)) r

/-- The particle list built by one `initParticles` call,
`ParticleCanvas.tsx` lines 49-158: the ambient loop pushes first, the image
loops push afterwards into the same array, with the random draws consumed
sequentially across both. -/
def initParticles (w h : ℕ) (data : List ℕ) (r : Rng) : List Particle :=
  let a := ambientParticles w h r
  let i := imageParticles w h data a.2
  a.1 ++ i.1

/-- Loaded bitmap handed to the sampler; only its intrinsic dimensions are
read (`ParticleCanvas.tsx` line 59). -/
structure Img where
  width : ℝ
  height : ℝ

/-- Component state touched by `initParticles`: the installed particle set
(`setParticles`) and the stored image reference (`imageRef`). -/
structure CanvasState where
  particles : List Particle
  imageRef : Option Img

/-- The full `initParticles` call including its state effects,
`ParticleCanvas.tsx` lines 43-159: it first stores the image in `imageRef`
(line 44), then aborts if the offscreen 2D context is unavailable (line 47),
otherwise installs the freshly sampled particle list. -/
def initParticlesRun (st : CanvasState) (img : Img) (w h : ℕ) (ctxOk : Bool)
    (data : List ℕ) (r : Rng) : CanvasState :=
  let st1 : CanvasState := { st with imageRef := some img }
  if ctxOk then { st1 with particles := initParticles w h data r } else st1

/-- JavaScript number with its special values: a finite value (arbitrary
precision is kept exact), NaN, or a signed infinity.  Used to track the NaN
produced by the unguarded division in the physics step. -/
inductive JVal where
  | num : ℝ → JVal
  | nan : JVal
  | pinf : JVal
  | ninf : JVal

/-- IEEE addition on `JVal`. -/
def jadd : JVal → JVal → JVal
  | .num a, .num b => .num (a + b)
  | .nan, _ => .nan
  | _, .nan => .nan
  | .pinf, .ninf => .nan
  | .ninf, .pinf => .nan
  | .pinf, _ => .pinf
  | _, .pinf => .pinf
  | .ninf, _ => .ninf
  | _, .ninf => .ninf

/-- IEEE subtraction on `JVal`. -/
def jsub : JVal → JVal → JVal
  | .num a, .num b => .num (a - b)
  | .nan, _ => .nan
  | _, .nan => .nan
  | .pinf, .pinf => .nan
  | .ninf, .ninf => .nan
  | .pinf, _ => .pinf
  | _, .pinf => .ninf
  | .ninf, _ => .ninf
  | _, .ninf => .pinf

/-- IEEE multiplication on `JVal`. -/
def jmul : JVal → JVal → JVal
  | .num a, .num b => .num (a * b)
  | .nan, _ => .nan
  | _, .nan => .nan
  | .pinf, .pinf => .pinf
  | .pinf, .ninf => .ninf
  | .ninf, .pinf => .ninf
  | .ninf, .ninf => .pinf
  | .pinf, .num b => if b = 0 then .nan else if 0 < b then .pinf else .ninf
  | .num a, .pinf => if a = 0 then .nan else if 0 < a then .pinf else .ninf
  | .ninf, .num b => if b = 0 then .nan else if 0 < b then .ninf else .pinf
  | .num a, .ninf => if a = 0 then .nan else if 0 < a then .ninf else .pinf

/-- IEEE division on `JVal`; in particular `0 / 0` is NaN and `a / 0` with
`a ≠ 0` is a signed infinity. -/
def jdiv : JVal → JVal → JVal
  | .nan, _ => .nan
  | _, .nan => .nan
  | .num a, .num b =>
    if b = 0 then (if a = 0 then .nan else if 0 < a then .pinf else .ninf)
    else .num (a / b)
  | .pinf, .pinf => .nan
  | .pinf, .ninf => .nan
  | .ninf, .pinf => .nan
  | .ninf, .ninf => .nan
  | .num _, .pinf => .num 0
  | .num _, .ninf => .num 0
  | .pinf, .num b => if 0 ≤ b then .pinf else .ninf
  | .ninf, .num b => if 0 ≤ b then .ninf else .pinf

/-- IEEE square root on `JVal`: NaN for negative or NaN input. -/
def jsqrt : JVal → JVal
  | .num a => if a < 0 then .nan else .num (Real.sqrt a)
  | .nan => .nan
  | .pinf => .pinf
  | .ninf => .nan

/-- IEEE `<` on `JVal`: any comparison with NaN is false. -/
def jlt : JVal → JVal → Prop
  | .num a, .num b => a < b
  | .nan, _ => False
  | _, .nan => False
  | .pinf, _ => False
  | .ninf, .ninf => False
  | .ninf, _ => True
  | .num _, .pinf => True
  | .num _, .ninf => False

/-- JavaScript strict inequality `!==` on numbers: `NaN !== NaN` is true. -/
def jne : JVal → JVal → Prop
  | .num a, .num b => a ≠ b
  | .nan, _ => True
  | _, .nan => True
  | .pinf, .pinf => False
  | .ninf, .ninf => False
  | _, _ => True

/-- JavaScript falsiness of a number: `0` and NaN are falsy. -/
def jfalsy : JVal → Prop
  | .num a => a = 0
  | .nan => True
  | _ => False

/-- `coord || -1000` over `JVal`. -/
def jeffCoord (c : Option JVal) : JVal :=
  match c with
  | none => .num sentinel
  | some v => if jfalsy v then .num sentinel else v

/-- Particle with JavaScript-number fields, for NaN tracking. -/
structure JParticle where
  x : JVal
  y : JVal
  originX : JVal
  originY : JVal
  color : String
  size : JVal
  vx : JVal
  vy : JVal
  density : JVal

/-- Distance computation of the physics step over JavaScript numbers,
`ParticleCanvas.tsx` lines 251-253. -/
def jdistance (current : Option (JVal × JVal)) (p : JParticle) : JVal :=
  let dx := jsub (jeffCoord (current.map Prod.fst)) p.x
  let dy := jsub (jeffCoord (current.map Prod.snd)) p.y
  jsqrt (jadd (jmul dx dx) (jmul dy dy))

/-- The physics update of `ParticleCanvas.tsx` lines 248-284 over JavaScript
numbers, keeping NaN propagation. -/
def jPhysicsStep (radius : JVal) (current : Option (JVal × JVal))
    (center : JVal × JVal) (p : JParticle) : JParticle :=
  let dx := jsub (jeffCoord (current.map Prod.fst)) p.x
  let dy := jsub (jeffCoord (current.map Prod.snd)) p.y
  let distance := jdistance current p
  let forceDirectionX := jdiv dx distance
  let forceDirectionY := jdiv dy distance
  let maxDistance := radius
  let homeX := jadd center.1 p.originX
  let homeY := jadd center.2 p.originY
  let p1 :=
    if jlt distance maxDistance then
      let force := jdiv (jsub maxDistance distance) maxDistance
      { p with
          vx := jsub p.vx (jmul (jmul (jmul forceDirectionX force) p.density) (.num 2.0)),
          vy := jsub p.vy (jmul (jmul (jmul forceDirectionY force) p.density) (.num 2.0)) }
    else
      let pa := if jne p.x homeX then
          { p with vx := jsub p.vx (jdiv (jsub p.x homeX) (.num 25)) } else p
      if jne p.y homeY then
        { pa with vy := jsub pa.vy (jdiv (jsub p.y homeY) (.num 25)) } else pa
  let p2 := { p1 with vx := jmul p1.vx (.num 0.90), vy := jmul p1.vy (.num 0.90) }
  { p2 with x := jadd p2.x p2.vx, y := jadd p2.y p2.vy }

/-- Concrete 2x2 RGBA buffer whose only pixel with alpha above 128 is
`(0, 0)`. -/
def sampleData : List ℕ := [0, 0, 0, 200, 0, 0, 0, 0, 0, 0, 0, 0, 0, 0, 0, 0]

/-- Particle at rest at the canvas origin, its home. -/
def pZero : Particle := ⟨0, 0, 0, 0, "", 1, 0, 0, 1⟩

/-- Per-axis action of the spring branch followed by damping and integration,
on the pair (offset from home, velocity). -/
def springAxis (z : ℝ × ℝ) : ℝ × ℝ :=
  (z.1 + (z.2 - z.1 / 25) * 0.90, (z.2 - z.1 / 25) * 0.90)

/-- Quadratic Lyapunov form of the spring-damping recurrence; it contracts by
exactly the factor 0.9 per frame. -/
def Q (z : ℝ × ℝ) : ℝ := 9 * z.1 ^ 2 + 16 * z.1 * z.2 + 225 * z.2 ^ 2

/-- Trajectory of a particle with a null interaction point and fixed center. -/
def traj (center : ℝ × ℝ) (p : Particle) (n : ℕ) : Particle :=
  frames interactionRadius (fun _ => none) (fun _ => center) p n

/-- Summed Lyapunov energy of both axes along the trajectory. -/
def trajQ (center : ℝ × ℝ) (p : Particle) (n : ℕ) : ℝ :=
  Q ((traj center p n).x - (center.1 + (traj center p n).originX),
      (traj center p n).vx) +
    Q ((traj center p n).y - (center.2 + (traj center p n).originY),
      (traj center p n).vy)

/-- Particle resting at a home deep inside the sentinel's repulsion ball. -/
def pBad : Particle := ⟨-900, -1000, -900, -1000, "", 1, 0, 0, 1⟩

/-- Particle one pixel right of its home (the canvas origin), at rest. -/
def pConv : Particle := ⟨1, 0, 0, 0, "", 1, 0, 0, 1⟩

/-- The physics step only rewrites position and velocity; the other particle
fields pass through every branch unchanged. -/
theorem step_fields_aux (radius : ℝ) (current : Option (ℝ × ℝ)) (center : ℝ × ℝ)
    (p : Particle) :
    (physicsStep radius current center p).originX = p.originX ∧
    (physicsStep radius current center p).originY = p.originY ∧
    (physicsStep radius current center p).color = p.color ∧
    (physicsStep radius current center p).size = p.size ∧
    (physicsStep radius current center p).density = p.density := by
  simp only [physicsStep]
  split_ifs <;> simp

/-- C4: the per-frame interaction smoothing drops to `(null, null)` with the
target, snaps to a freshly acquired target without interpolation, otherwise
lerps both coordinates with factor 0.15; with target `(100, 100)` and current
`(0, 0)` one frame yields `(15, 15)`. -/
theorem smoothStep_spec :
    (∀ c, smoothStep none c = none) ∧
    (∀ t : ℝ × ℝ, smoothStep (some t) none = some t) ∧
    (∀ t c : ℝ × ℝ, smoothStep (some t) (some c) =
      some (c.1 + (t.1 - c.1) * 0.15, c.2 + (t.2 - c.2) * 0.15)) ∧
    smoothStep (some (100, 100)) (some (0, 0)) = some (15, 15) := by
  refine ⟨fun c => rfl, fun t => rfl, fun t c => rfl, ?_⟩
  simp only [smoothStep, lerp, smoothFactor]
  norm_num

/-- C10: a non-null interaction point with a coordinate equal to 0 has that
coordinate replaced by the sentinel -1000 (the `||` fallback treats 0 as
absent), so the force is computed from a position different from the actual
point. -/
theorem zero_coordinate_sentinel :
    (∀ y : ℝ, effX (some (0, y)) = -1000) ∧
    (∀ x : ℝ, effY (some (x, 0)) = -1000) ∧
    (∀ x y : ℝ, x = 0 ∨ y = 0 →
      (effX (some (x, y)), effY (some (x, y))) ≠ (x, y)) := by
  refine ⟨fun y => by simp [effX, effCoord, sentinel],
    fun x => by simp [effY, effCoord, sentinel], ?_⟩
  rintro x y (rfl | rfl)
  · intro hcontra
    have h1 := congrArg Prod.fst hcontra
    simp [effX, effCoord, sentinel] at h1
  · intro hcontra
    have h1 := congrArg Prod.snd hcontra
    simp [effY, effCoord, sentinel] at h1

/-- Witness for the C10 theorem at the concrete points `(0, 50)` and
`(50, 0)`. -/
theorem zero_coordinate_sentinel_witness :
    effX (some ((0 : ℝ), (50 : ℝ))) = -1000 ∧
    effY (some ((50 : ℝ), (0 : ℝ))) = -1000 ∧
    (effX (some ((0 : ℝ), (50 : ℝ))), effY (some ((0 : ℝ), (50 : ℝ)))) ≠
      ((0 : ℝ), (50 : ℝ)) :=
  ⟨zero_coordinate_sentinel.1 50, zero_coordinate_sentinel.2.1 50,
    zero_coordinate_sentinel.2.2 0 50 (Or.inl rfl)⟩

/-- Counterexample to C9: with the offscreen context unavailable the call is
not a full no-op — the stored image reference is overwritten before the
context check, so the component state changes. -/
theorem ctx_unavailable_cex :
    initParticlesRun ⟨[], none⟩ ⟨5, 7⟩ 10 10 false [] ⟨fun _ => 0, 0⟩ ≠
      (⟨[], none⟩ : CanvasState) := by
  intro hcontra
  have h1 := congrArg CanvasState.imageRef hcontra
  simp [initParticlesRun] at h1

/-- C9 (amended): if the offscreen 2D context is unavailable, no particle set
is produced and the prior particle set remains installed, and nothing is
reported upward; however the stored image reference is updated to the new
image before the context check, so not every piece of prior state is
preserved. -/
theorem ctx_unavailable_particles_preserved (st : CanvasState) (img : Img)
    (w h : ℕ) (data : List ℕ) (r : Rng) :
    (initParticlesRun st img w h false data r).particles = st.particles ∧
    (initParticlesRun st img w h false data r).imageRef = some img := by
  simp [initParticlesRun]

/-- C2: iterating the physics step any number of frames, under arbitrarily
varying interaction points and canvas centers (resizes/recenters), never
changes a particle's origin, color, size or density. -/
theorem frames_preserve_immutable_fields (radius : ℝ)
    (cur : ℕ → Option (ℝ × ℝ)) (cen : ℕ → ℝ × ℝ) (p : Particle) (n : ℕ) :
    (frames radius cur cen p n).originX = p.originX ∧
    (frames radius cur cen p n).originY = p.originY ∧
    (frames radius cur cen p n).color = p.color ∧
    (frames radius cur cen p n).size = p.size ∧
    (frames radius cur cen p n).density = p.density := by
  induction n with
  | zero => exact ⟨rfl, rfl, rfl, rfl, rfl⟩
  | succ n ih =>
    have hs := step_fields_aux radius (cur n) (cen n) (frames radius cur cen p n)
    exact ⟨hs.1.trans ih.1, hs.2.1.trans ih.2.1, hs.2.2.1.trans ih.2.2.1,
      hs.2.2.2.1.trans ih.2.2.2.1, hs.2.2.2.2.trans ih.2.2.2.2⟩

/-- C5: for a particle positioned exactly at the effective interaction point
the computed distance is 0, the force direction is formed as `0 / 0` with no
special case or epsilon clamp, and after the step both velocity components are
NaN. -/
theorem zero_distance_nan :
    jdistance (some (.num 100, .num 100))
      ⟨.num 100, .num 100, .num 0, .num 0, "w", .num 1, .num 0, .num 0, .num 5⟩ =
      .num 0 ∧
    (jPhysicsStep (.num 320) (some (.num 100, .num 100)) (.num 0, .num 0)
      ⟨.num 100, .num 100, .num 0, .num 0, "w", .num 1, .num 0, .num 0, .num 5⟩).vx =
      .nan ∧
    (jPhysicsStep (.num 320) (some (.num 100, .num 100)) (.num 0, .num 0)
      ⟨.num 100, .num 100, .num 0, .num 0, "w", .num 1, .num 0, .num 0, .num 5⟩).vy =
      .nan := by
  norm_num [jdistance, jPhysicsStep, jeffCoord, jfalsy, jsub, jadd, jmul, jdiv,
    jsqrt, jlt, sentinel]

/-- C1: the physics step is exactly the composition the spec describes —
home = center + origin; strictly inside the interaction radius subtract the
unit direction toward the point scaled by
`((radius - distance) / radius) * density * 2.0` from velocity, otherwise
subtract `(position - home) / 25`; then damp both velocity components by 0.90;
then add velocity to position — in that order.  (The source's
`p.x !== homeX` guards only skip subtracting an exact zero.) -/
theorem physicsStep_eq_stepSpec (radius : ℝ) (current : Option (ℝ × ℝ))
    (center : ℝ × ℝ) (p : Particle) :
    physicsStep radius current center p = stepSpec radius current center p := by
  cases p with
  | mk x y ox oy col sz vx vy d =>
    simp only [physicsStep, stepSpec, forcePhase, repulsePhase, springPhase,
      dampPhase, integratePhase, interactionDistance]
    split_ifs with h1 h2 h3 h4 <;>
      simp_all [Particle.mk.injEq, sub_self]

/-- The ambient loop emits exactly its iteration count. -/
theorem genAmbientAux_length (cx cy rad : ℝ) :
    ∀ (n : ℕ) (r : Rng), (genAmbientAux cx cy rad n r).1.length = n
  | 0, _ => rfl
  | n + 1, r => by
    simp only [genAmbientAux, List.length_cons]
    rw [genAmbientAux_length cx cy rad n]

/-- C7: the sampler generates exactly
`min(floor(pi * (0.45 * min(W, H))^2 / 30), 20000)` ambient particles. -/
theorem ambient_count_formula (w h : ℕ) (r : Rng) :
    ((ambientParticles w h r).1.length : ℤ) =
      min ⌊Real.pi * (0.45 * min (w : ℝ) (h : ℝ)) ^ 2 / 30⌋ 20000 := by
  have hm : (0 : ℝ) ≤ min (w : ℝ) (h : ℝ) := le_min (Nat.cast_nonneg w) (Nat.cast_nonneg h)
  have hr : 0 ≤ universeRadius w h := by
    rw [universeRadius]; nlinarith
  have harg : 0 ≤ Real.pi * universeRadius w h * universeRadius w h / 30 := by
    have := Real.pi_pos
    positivity
  have h0 : 0 ≤ ambientBudget w h :=
    le_min (Int.floor_nonneg.2 harg) (by norm_num)
  have hlen : (ambientParticles w h r).1.length = (ambientBudget w h).toNat :=
    genAmbientAux_length _ _ _ _ r
  rw [hlen, Int.toNat_of_nonneg h0, ambientBudget]
  congr 2
  rw [universeRadius]; ring

/-- A value visited by a strided loop (stride 2 or 3) stays below the bound. -/
theorem mem_gridAxis_lt {len s v : ℕ} (hs : s = 2 ∨ s = 3)
    (hv : v ∈ gridAxis len s) : v < len := by
  rw [gridAxis, List.mem_range'] at hv
  obtain ⟨i, hi, rfl⟩ := hv
  rcases hs with rfl | rfl <;> omega

/-- The stride is always 2 or 3. -/
theorem strideOf_cases (w : ℕ) : strideOf w = 2 ∨ strideOf w = 3 := by
  rw [strideOf]; split_ifs <;> simp

/-- A visited pixel's base index is in range for well-formed RGBA data. -/
theorem pixel_index_lt {w h px py : ℕ} (hw : px < w) (hh : py < h) :
    (py * w + px) * 4 < 4 * w * h := by
  have h1 : py * w + px < h * w := by
    calc py * w + px < py * w + w := by omega
    _ = (py + 1) * w := by ring
    _ ≤ h * w := Nat.mul_le_mul_right w hh
  calc (py * w + px) * 4 < (h * w) * 4 := by
        exact (Nat.mul_lt_mul_right (by norm_num)).2 h1
  _ = 4 * w * h := by ring

/-- Origins of the particles emitted by one row of the image sampling loop:
exactly the visited columns whose pixel is in range and has alpha above 128,
each mapped to `pixel - center`. -/
theorem genImageCols_origins (w h : ℕ) (data : List ℕ) (py : ℕ) :
    ∀ (cols : List ℕ) (r : Rng),
      ((genImageCols w h data py cols r).1.map fun p => (p.originX, p.originY)) =
        (cols.filter fun px =>
          decide ((py * w + px) * 4 < data.length) &&
            decide (128 < alphaAt data w px py)).map
          (fun px : ℕ => ((px : ℝ) - (w : ℝ) / 2, (py : ℝ) - (h : ℝ) / 2))
  | [], _ => by simp [genImageCols]
  | px :: rest, r => by
    rw [genImageCols]
    by_cases hg : data.length ≤ (py * w + px) * 4
    · rw [if_pos hg, List.filter_cons_of_neg, genImageCols_origins w h data py rest r]
      simp [Nat.not_lt.2 hg]
    · rw [if_neg hg]
      by_cases ha : 128 < alphaAt data w px py
      · rw [if_pos ha, List.filter_cons_of_pos]
        · simp only [List.map_cons]
          exact congrArg₂ _ (by simp [mkImageParticle])
            (genImageCols_origins w h data py rest _)
        · simp [Nat.not_le.1 hg, ha]
      · rw [if_neg ha, List.filter_cons_of_neg, genImageCols_origins w h data py rest r]
        simp [ha]

/-- Origins of all particles emitted by the nested image sampling loops. -/
theorem genImageRows_origins (w h : ℕ) (data : List ℕ) :
    ∀ (rows : List ℕ) (r : Rng),
      ((genImageRows w h data rows r).1.map fun p => (p.originX, p.originY)) =
        rows.flatMap fun py =>
          ((gridAxis w (strideOf w)).filter fun px =>
            decide ((py * w + px) * 4 < data.length) &&
              decide (128 < alphaAt data w px py)).map
            (fun px : ℕ => ((px : ℝ) - (w : ℝ) / 2, (py : ℝ) - (h : ℝ) / 2))
  | [], _ => by simp [genImageRows]
  | py :: rest, r => by
    rw [genImageRows]
    simp only [List.map_append, List.flatMap_cons]
    rw [genImageCols_origins, genImageRows_origins w h data rest _]

/-- C8: for RGBA data of the full canvas, the image loop emits a particle
exactly at the strided grid positions whose pixel alpha strictly exceeds 128
(origins identify the emitted particles), and the sampler's output is all
ambient particles followed by all image particles. -/
theorem image_sampling_grid (w h : ℕ) (data : List ℕ) (r : Rng)
    (hdata : data.length = 4 * w * h) :
    initParticles w h data r =
      (ambientParticles w h r).1 ++
        (imageParticles w h data (ambientParticles w h r).2).1 ∧
    ((imageParticles w h data (ambientParticles w h r).2).1.map
        fun p => (p.originX, p.originY)) =
      ((gridPairs w h).filter fun q => decide (128 < alphaAt data w q.1 q.2)).map
        (fun q => ((q.1 : ℝ) - (w : ℝ) / 2, (q.2 : ℝ) - (h : ℝ) / 2)) := by
  refine ⟨rfl, ?_⟩
  rw [imageParticles, genImageRows_origins, gridPairs, List.filter_flatMap,
    List.map_flatMap]
  refine List.flatMap_congr fun py hpy => ?_
  have hpy' : py < h := mem_gridAxis_lt (strideOf_cases w) hpy
  rw [List.filter_map, List.map_map]
  have hcols : ∀ px ∈ gridAxis w (strideOf w),
      (decide ((py * w + px) * 4 < data.length) &&
        decide (128 < alphaAt data w px py)) =
        ((fun q : ℕ × ℕ => decide (128 < alphaAt data w q.1 q.2)) ∘
          fun px => (px, py)) px := by
    intro px hpx
    have hw : px < w := mem_gridAxis_lt (strideOf_cases w) hpx
    have hidx : (py * w + px) * 4 < data.length := by
      rw [hdata]; exact pixel_index_lt hw hpy'
    simp [hidx, Function.comp]
  rw [List.filter_congr hcols]
  simp [Function.comp]

/-- Witness for the C8 theorem on a concrete 2x2 canvas. -/
theorem image_sampling_grid_witness :
    sampleData.length = 4 * 2 * 2 ∧
    (initParticles 2 2 sampleData ⟨fun _ => 0, 0⟩ =
      (ambientParticles 2 2 ⟨fun _ => 0, 0⟩).1 ++
        (imageParticles 2 2 sampleData (ambientParticles 2 2 ⟨fun _ => 0, 0⟩).2).1 ∧
    ((imageParticles 2 2 sampleData (ambientParticles 2 2 ⟨fun _ => 0, 0⟩).2).1.map
        fun p => (p.originX, p.originY)) =
      ((gridPairs 2 2).filter
          fun q => decide (128 < alphaAt sampleData 2 q.1 q.2)).map
        (fun q => ((q.1 : ℝ) - (2 : ℝ) / 2, (q.2 : ℝ) - (2 : ℝ) / 2))) :=
  ⟨by decide, image_sampling_grid 2 2 sampleData ⟨fun _ => 0, 0⟩ (by decide)⟩

/-- The physics step equals the spec-worded phase composition (shared between
the C1 and C6 developments). -/
theorem step_eq_phases (radius : ℝ) (current : Option (ℝ × ℝ))
    (center : ℝ × ℝ) (p : Particle) :
    physicsStep radius current center p = stepSpec radius current center p := by
  cases p with
  | mk x y ox oy col sz vx vy d =>
    simp only [physicsStep, stepSpec, forcePhase, repulsePhase, springPhase,
      dampPhase, integratePhase, interactionDistance]
    split_ifs with h1 h2 h3 h4 <;>
      simp_all [Particle.mk.injEq, sub_self]

/-- Outside the interaction radius the step is spring, damping, integration. -/
theorem spring_branch_aux (radius : ℝ) (current : Option (ℝ × ℝ))
    (center : ℝ × ℝ) (p : Particle)
    (hge : ¬ interactionDistance current p < radius) :
    physicsStep radius current center p =
      integratePhase (dampPhase (springPhase center p)) := by
  rw [step_eq_phases, stepSpec, forcePhase, if_neg hge]

/-- A particle with both coordinates above -680 is strictly farther than the
interaction radius from the null-point sentinel (-1000, -1000). -/
theorem sentinel_far_aux {p : Particle} (hx : -680 < p.x) (hy : -680 < p.y) :
    interactionRadius < interactionDistance none p := by
  have hex : effX none = -1000 := rfl
  have hey : effY none = -1000 := rfl
  rw [interactionDistance, hex, hey, interactionRadius]
  rw [show (320 : ℝ) < Real.sqrt ((-1000 - p.x) * (-1000 - p.x) +
      (-1000 - p.y) * (-1000 - p.y)) ↔ (320 : ℝ) ^ 2 <
      (-1000 - p.x) * (-1000 - p.x) + (-1000 - p.y) * (-1000 - p.y) from
    Real.lt_sqrt (by norm_num)]
  nlinarith [sq_nonneg (-1000 - p.y), hy]

/-- C6: with a null smoothed interaction point the step computes from the
sentinel (-1000, -1000); every particle with nonnegative coordinates lies
strictly outside the 320 interaction radius of that sentinel and therefore
takes the spring-toward-home branch, never the repulsion branch. -/
theorem null_point_sentinel_spring (center : ℝ × ℝ) (p : Particle)
    (hx : 0 ≤ p.x) (hy : 0 ≤ p.y) :
    effX none = -1000 ∧ effY none = -1000 ∧
    interactionRadius < interactionDistance none p ∧
    physicsStep interactionRadius none center p =
      integratePhase (dampPhase (springPhase center p)) := by
  have hfar := sentinel_far_aux (by linarith : (-680 : ℝ) < p.x)
    (by linarith : (-680 : ℝ) < p.y)
  exact ⟨rfl, rfl, hfar, spring_branch_aux _ _ _ _ (lt_asymm hfar)⟩

/-- Witness for the C6 theorem at the concrete particle `pZero`. -/
theorem null_point_sentinel_spring_witness :
    (0 : ℝ) ≤ pZero.x ∧ (0 : ℝ) ≤ pZero.y ∧
    (effX none = -1000 ∧ effY none = -1000 ∧
      interactionRadius < interactionDistance none pZero ∧
      physicsStep interactionRadius none (0, 0) pZero =
        integratePhase (dampPhase (springPhase (0, 0) pZero))) :=
  ⟨le_refl 0, le_refl 0,
    null_point_sentinel_spring (0, 0) pZero (le_refl 0) (le_refl 0)⟩

/-- The Lyapunov form contracts by exactly 0.9 under the axis map. -/
theorem Q_springAxis (z : ℝ × ℝ) : Q (springAxis z) = 0.9 * Q z := by
  simp only [Q, springAxis]; ring

/-- The Lyapunov form is nonnegative. -/
theorem Q_nonneg (z : ℝ × ℝ) : 0 ≤ Q z := by
  simp only [Q]; nlinarith [sq_nonneg (z.1 + 8 * z.2), sq_nonneg z.1, sq_nonneg z.2]

/-- The Lyapunov form dominates eight times the squared offset. -/
theorem Q_lower (z : ℝ × ℝ) : 8 * z.1 ^ 2 ≤ Q z := by
  simp only [Q]; nlinarith [sq_nonneg (z.1 + 8 * z.2), sq_nonneg z.2]

/-- Away from the sentinel ball, one physics frame acts on each axis as the
spring-damping axis map on (offset from home, velocity). -/
theorem spring_axis_step (center : ℝ × ℝ) (p : Particle)
    (hx : -680 < p.x) (hy : -680 < p.y) :
    ((physicsStep interactionRadius none center p).x -
        (center.1 + (physicsStep interactionRadius none center p).originX),
      (physicsStep interactionRadius none center p).vx) =
      springAxis (p.x - (center.1 + p.originX), p.vx) ∧
    ((physicsStep interactionRadius none center p).y -
        (center.2 + (physicsStep interactionRadius none center p).originY),
      (physicsStep interactionRadius none center p).vy) =
      springAxis (p.y - (center.2 + p.originY), p.vy) := by
  have hb := spring_branch_aux interactionRadius none center p
    (lt_asymm (sentinel_far_aux hx hy))
  rw [hb]
  constructor <;>
    · simp only [integratePhase, dampPhase, springPhase, springAxis, Prod.mk.injEq]
      constructor <;> ring

/-- One trajectory frame unfolds to one physics step. -/
theorem traj_succ (center : ℝ × ℝ) (p : Particle) (n : ℕ) :
    traj center p (n + 1) = physicsStep interactionRadius none center
      (traj center p n) := rfl

/-- Trajectory frames keep the particle's origin. -/
theorem traj_origin (center : ℝ × ℝ) (p : Particle) (n : ℕ) :
    (traj center p n).originX = p.originX ∧
    (traj center p n).originY = p.originY := by
  induction n with
  | zero => exact ⟨rfl, rfl⟩
  | succ n ih =>
    have hs := step_fields_aux interactionRadius none center (traj center p n)
    exact ⟨hs.1.trans ih.1, hs.2.1.trans ih.2⟩

/-- Lyapunov energy along a null-interaction trajectory decays geometrically
and never leaves the safe region, for homes with nonnegative coordinates. -/
theorem trajQ_decay (center : ℝ × ℝ) (p : Particle)
    (hhx : 0 ≤ center.1 + p.originX) (hhy : 0 ≤ center.2 + p.originY)
    (hT : trajQ center p 0 < 3699200) (n : ℕ) :
    trajQ center p n ≤ 0.9 ^ n * trajQ center p 0 ∧
      trajQ center p n < 3699200 := by
  induction n with
  | zero => exact ⟨by norm_num, hT⟩
  | succ n ih =>
    have horig := traj_origin center p n
    have hQsum : Q ((traj center p n).x - (center.1 + (traj center p n).originX),
        (traj center p n).vx) +
        Q ((traj center p n).y - (center.2 + (traj center p n).originY),
          (traj center p n).vy) < 3699200 := ih.2
    have hQx : Q ((traj center p n).x - (center.1 + (traj center p n).originX),
        (traj center p n).vx) < 3699200 :=
      lt_of_le_of_lt (le_add_of_nonneg_right (Q_nonneg _)) hQsum
    have hQy : Q ((traj center p n).y - (center.2 + (traj center p n).originY),
        (traj center p n).vy) < 3699200 :=
      lt_of_le_of_lt (le_add_of_nonneg_left (Q_nonneg _)) hQsum
    have h8x : 8 * ((traj center p n).x - (center.1 + (traj center p n).originX)) ^ 2 ≤
        Q ((traj center p n).x - (center.1 + (traj center p n).originX),
          (traj center p n).vx) := by
      simpa using Q_lower ((traj center p n).x -
        (center.1 + (traj center p n).originX), (traj center p n).vx)
    have h8y : 8 * ((traj center p n).y - (center.2 + (traj center p n).originY)) ^ 2 ≤
        Q ((traj center p n).y - (center.2 + (traj center p n).originY),
          (traj center p n).vy) := by
      simpa using Q_lower ((traj center p n).y -
        (center.2 + (traj center p n).originY), (traj center p n).vy)
    have hx : -680 < (traj center p n).x := by
      have : -680 < (traj center p n).x - (center.1 + (traj center p n).originX) := by
        nlinarith
      rw [horig.1] at this
      linarith
    have hy : -680 < (traj center p n).y := by
      have : -680 < (traj center p n).y - (center.2 + (traj center p n).originY) := by
        nlinarith
      rw [horig.2] at this
      linarith
    have hstep := spring_axis_step center (traj center p n) hx hy
    have heq : trajQ center p (n + 1) = 0.9 * trajQ center p n := by
      simp only [trajQ, traj_succ]
      rw [hstep.1, hstep.2, Q_springAxis, Q_springAxis]
      ring
    have hTn0 : 0 ≤ trajQ center p n := add_nonneg (Q_nonneg _) (Q_nonneg _)
    constructor
    · rw [heq]
      calc 0.9 * trajQ center p n ≤ 0.9 * (0.9 ^ n * trajQ center p 0) := by
            nlinarith [ih.1]
      _ = 0.9 ^ (n + 1) * trajQ center p 0 := by ring
    · rw [heq]; linarith

/-- C3 (amended): with the interaction point null on every frame, for every
particle whose home has nonnegative coordinates the state (position = home,
velocity = 0) is a fixed point of the step, and from every initial state whose
summed Lyapunov energy `trajQ` is below 3699200 (so the trajectory can never
enter the sentinel's repulsion ball) the iterated step drives the distance to
home below any positive epsilon.  The unrestricted claim is refuted by
`home_fixed_point_cex`. -/
theorem spring_convergence_amended (center : ℝ × ℝ) (p : Particle)
    (hhx : 0 ≤ center.1 + p.originX) (hhy : 0 ≤ center.2 + p.originY)
    (hT : trajQ center p 0 < 3699200) :
    physicsStep interactionRadius none center
        { p with x := center.1 + p.originX, y := center.2 + p.originY,
                 vx := 0, vy := 0 } =
      { p with x := center.1 + p.originX, y := center.2 + p.originY,
               vx := 0, vy := 0 } ∧
    ∀ ε : ℝ, 0 < ε → ∃ N : ℕ, ∀ n, N ≤ n →
      distToHome center (traj center p n) < ε := by
  constructor
  · have hb := spring_branch_aux interactionRadius none center
      { p with x := center.1 + p.originX, y := center.2 + p.originY,
               vx := 0, vy := 0 }
      (lt_asymm (sentinel_far_aux (by simp; linarith) (by simp; linarith)))
    rw [hb]
    cases p with
    | mk x y ox oy col sz vx vy d =>
      simp [integratePhase, dampPhase, springPhase]
  · intro ε hε
    have hT0 : 0 ≤ trajQ center p 0 := add_nonneg (Q_nonneg _) (Q_nonneg _)
    have hdenom : (0 : ℝ) < trajQ center p 0 + 1 := by linarith
    have htarget : (0 : ℝ) < 8 * ε ^ 2 / (trajQ center p 0 + 1) :=
      div_pos (by nlinarith) hdenom
    obtain ⟨N, hN⟩ := exists_pow_lt_of_lt_one htarget
      (by norm_num : (0.9 : ℝ) < 1)
    refine ⟨N, fun n hn => ?_⟩
    have hTn := (trajQ_decay center p hhx hhy hT n).1
    have hpow : (0.9 : ℝ) ^ n ≤ 0.9 ^ N :=
      pow_le_pow_of_le_one (by norm_num) (by norm_num) hn
    have hNpos : (0 : ℝ) ≤ 0.9 ^ N := by positivity
    have h1 : (0.9 : ℝ) ^ N * (trajQ center p 0 + 1) < 8 * ε ^ 2 :=
      (lt_div_iff hdenom).1 hN
    have hbound : trajQ center p n < 8 * ε ^ 2 := by
      calc trajQ center p n ≤ 0.9 ^ n * trajQ center p 0 := hTn
      _ ≤ 0.9 ^ N * trajQ center p 0 := mul_le_mul_of_nonneg_right hpow hT0
      _ ≤ 0.9 ^ N * (trajQ center p 0 + 1) := by nlinarith
      _ < 8 * ε ^ 2 := h1
    rw [distToHome, Real.sqrt_lt' hε]
    have h8x : 8 * ((traj center p n).x - (center.1 + (traj center p n).originX)) ^ 2 ≤
        Q ((traj center p n).x - (center.1 + (traj center p n).originX),
          (traj center p n).vx) := by
      simpa using Q_lower ((traj center p n).x -
        (center.1 + (traj center p n).originX), (traj center p n).vx)
    have h8y : 8 * ((traj center p n).y - (center.2 + (traj center p n).originY)) ^ 2 ≤
        Q ((traj center p n).y - (center.2 + (traj center p n).originY),
          (traj center p n).vy) := by
      simpa using Q_lower ((traj center p n).y -
        (center.2 + (traj center p n).originY), (traj center p n).vy)
    simp only [trajQ] at hbound
    linarith

/-- Counterexample to C3 as stated: `pBad` sits exactly at its home
(center (0, 0)) with zero velocity, yet one step with a null interaction point
moves it — the sentinel (-1000, -1000) is 100 pixels away, inside the 320
radius, so the repulsion branch fires and (home, 0) is not a fixed point. -/
theorem home_fixed_point_cex :
    pBad.x = (0 : ℝ) + pBad.originX ∧ pBad.y = (0 : ℝ) + pBad.originY ∧
    pBad.vx = 0 ∧ pBad.vy = 0 ∧
    physicsStep interactionRadius none (0, 0) pBad ≠ pBad := by
  refine ⟨by norm_num [pBad], by norm_num [pBad], rfl, rfl, ?_⟩
  have hd : interactionDistance none pBad = 100 := by
    rw [interactionDistance]
    have h1 : (effX none - pBad.x) * (effX none - pBad.x) +
        (effY none - pBad.y) * (effY none - pBad.y) = 100 ^ 2 := by
      norm_num [effX, effY, effCoord, sentinel, pBad]
    rw [h1, Real.sqrt_sq (by norm_num : (0 : ℝ) ≤ 100)]
  have hstep : physicsStep interactionRadius none (0, 0) pBad =
      integratePhase (dampPhase (repulsePhase interactionRadius none pBad)) := by
    rw [step_eq_phases, stepSpec, forcePhase, if_pos]
    rw [hd, interactionRadius]; norm_num
  intro hcontra
  have hx := congrArg Particle.x hcontra
  rw [hstep] at hx
  simp only [integratePhase, dampPhase, repulsePhase, hd] at hx
  norm_num [effX, effY, effCoord, sentinel, pBad, interactionRadius] at hx

/-- Witness for the amended C3 theorem at the concrete particle `pConv`. -/
theorem spring_convergence_witness :
    (0 : ℝ) ≤ 0 + pConv.originX ∧ (0 : ℝ) ≤ 0 + pConv.originY ∧
    trajQ (0, 0) pConv 0 < 3699200 ∧
    (physicsStep interactionRadius none (0, 0)
        { pConv with x := 0 + pConv.originX, y := 0 + pConv.originY,
                     vx := 0, vy := 0 } =
      { pConv with x := 0 + pConv.originX, y := 0 + pConv.originY,
                   vx := 0, vy := 0 } ∧
     ∀ ε : ℝ, 0 < ε → ∃ N : ℕ, ∀ n, N ≤ n →
       distToHome (0, 0) (traj (0, 0) pConv n) < ε) := by
  have h1 : (0 : ℝ) ≤ 0 + pConv.originX := by norm_num [pConv]
  have h2 : (0 : ℝ) ≤ 0 + pConv.originY := by norm_num [pConv]
  have h3 : trajQ (0, 0) pConv 0 < 3699200 := by
    norm_num [trajQ, traj, frames, Q, pConv]
  exact ⟨h1, h2, h3, spring_convergence_amended (0, 0) pConv h1 h2 h3⟩

end LogoParticle

end
